import Mathlib

/-!
# Shallow embedding of the boltstore session store (boltstore.go)

The store persists session records in bolthold and identifies sessions to
clients through a securecookie-authenticated cookie value.  We embed:

* the persisted `Session` record and the bolthold operations the store uses
  (`FindOne` on the `Session` index filtered by `ExpiresAt`, `Insert` with
  `NextSequence`, `Update`, `Delete`, `DeleteMatching`);
* the securecookie codec as a black box: an authenticated token carries one
  typed gob value (a string, an unsigned integer, or a values map) and
  decoding fails on a corrupted token or on a gob type mismatch, while
  encoding fails when the encoded value exceeds the codec's maximum length;
* the lifecycle methods `New`, `Save` and `Cleanup` of `BoltStore`.

Wall-clock time (`time.Now()`), the random identifier produced by
`securecookie.GenerateRandomKey` + base32, and the codec's maximum length are
passed as explicit parameters.  Times are integers (seconds).
-/

namespace Boltstore

/-- A value carried inside an authenticated cookie token.  gob serialization
is typed: the token records whether it holds a string, an unsigned integer,
or a map of session values, and decoding into a destination of a different
type fails. -/
inductive Encoded where
  | str (s : String)
  | num (n : Nat)
  | vals (v : List (String × String))
deriving DecidableEq, Repr

/-- A cookie value as securecookie sees it: either a well-formed
authenticated token, or a corrupted / forged byte string (any token with
even a single flipped byte fails HMAC verification). -/
inductive Tok where
  | good (e : Encoded)
  | bad
deriving DecidableEq, Repr

/-- Size measure of an encoded value, standing for the length of the
serialized token; only used for the codec's MaxLength check. -/
def encSize : Encoded → Nat
  | .str s => s.length
  | .num n => (toString n).length
  | .vals v => v.foldl (fun acc p => acc + p.1.length + p.2.length) 0

/-- `securecookie.EncodeMulti`: produce an authenticated token, failing when
the encoded value exceeds the codec's maximum length. -/
def encodeMulti (maxLen : Nat) (e : Encoded) : Option Tok :=
  if encSize e ≤ maxLen then some (.good e) else none

/-- `securecookie.DecodeMulti` with a string destination (the
`sessionID := ""` in `getSessionFromCookie`): authentication must succeed
and the gob value must itself be a string, otherwise gob reports a type
mismatch and `DecodeMulti` returns an error. -/
def decodeMultiString : Tok → Option String
  | .good (.str s) => some s
  | _ => none

/-- `securecookie.DecodeMulti` with a `session.Values` destination. -/
def decodeMultiVals : Tok → Option (List (String × String))
  | .good (.vals v) => some v
  | _ => none

/-- The persisted record (`type Session` in boltstore.go): uint64 bolthold
key, indexed opaque identifier, encoded payload, and timestamps. -/
structure Session where
  ID : Nat
  Session : String
  Data : Tok
  CreatedAt : Int
  UpdatedAt : Int
  ExpiresAt : Int
deriving DecidableEq, Repr

/-- The bolthold store contents: the list of records in the `Session`
bucket, plus the bucket's sequence counter used by `NextSequence` (bbolt
sequences hand out 1, 2, …). -/
structure Db where
  records : List Session
  nextSeq : Nat
deriving DecidableEq, Repr

/-- `FindOne` with query `Where("Session").Eq(sid).And("ExpiresAt").Gt(now)`:
the first matching record, or not-found. -/
def findOne (db : Db) (sid : String) (now : Int) : Option Session :=
  db.records.find? (fun x => x.Session == sid && decide (now < x.ExpiresAt))

/-- `Update(key, rec)`: overwrite the record stored at `key`. -/
def updateAt (db : Db) (key : Nat) (s : Session) : Db :=
  { db with records := db.records.map (fun x => if x.ID = key then s else x) }

/-- `Delete(key, _)`: remove the record stored at `key`. -/
def deleteAt (db : Db) (key : Nat) : Db :=
  { db with records := db.records.filter (fun x => x.ID ≠ key) }

/-- Cookie options (`sessions.Options`); only the fields the embedded claims
touch. -/
structure Options where
  path : String
  maxAge : Int
deriving DecidableEq, Repr

/-- A working session (`sessions.Session`): name, externally-visible
identifier, mutable values, options, and the is-new flag. -/
structure WSession where
  name : String
  ID : String
  values : List (String × String)
  options : Options
  isNew : Bool
deriving DecidableEq, Repr

/-- An HTTP request, reduced to its cookie jar. -/
structure Request where
  cookies : List (String × Tok)
deriving DecidableEq, Repr

/-- `r.Cookie(name)`: the first cookie with that name, if any. -/
def Request.cookie (r : Request) (name : String) : Option Tok :=
  (r.cookies.find? (fun p => p.1 == name)).map (·.2)

/-- The value of a `Set-Cookie` written by the store: `Save` writes either
the literal empty string (logout path) or an encoded token. -/
inductive CookieVal where
  | empty
  | tok (t : Tok)
deriving DecidableEq, Repr

/-- A cookie attached to the response by `http.SetCookie` +
`sessions.NewCookie`. -/
structure Cookie where
  name : String
  value : CookieVal
  options : Options
deriving DecidableEq, Repr

/-- `getSessionFromCookie`: read the request cookie, decode its value into a
string session id, and look up the live record through the `Session`
index. -/
def getSessionFromCookie (db : Db) (r : Request) (name : String) (now : Int) :
    Option Session :=
  match r.cookie name with
  | none => none
  | some t =>
    match decodeMultiString t with
    | none => none
    | some sid => findOne db sid now

/-- `BoltStore.New`: build a fresh `is-new` session; when the request cookie
resolves to a live record whose payload decodes, resume it.  Returns the
session together with the returned error, which the Go code always leaves
nil. -/
def New (db : Db) (r : Request) (name : String) (opts : Options) (now : Int) :
    WSession × Option Unit :=
  let session : WSession :=
    { name := name, ID := "", values := [], options := opts, isNew := true }
  match getSessionFromCookie db r name now with
  | none => (session, none)
  | some s =>
    match decodeMultiVals s.Data with
    | none => (session, none)
    | some v => ({ session with ID := s.Session, values := v, isNew := false }, none)

/-- The error `Save` can return in this model: a securecookie encoding
failure (of the payload or of the identifier token). -/
inductive SaveErr where
  | encodingFailure
deriving DecidableEq, Repr

/-- Outcome of `Save`: the store contents after the call (mutations already
performed stay even when an error is returned, as in the Go code), the
cookie attached to the response if any, and the returned error. -/
structure SaveResult where
  db : Db
  cookie : Option Cookie
  err : Option SaveErr
deriving DecidableEq, Repr

/-- `BoltStore.Save`: delete-and-clear on negative max-age; otherwise encode
the payload, then insert a fresh record (with a newly generated random
identifier `freshId` and the `NextSequence` key) when the request cookie
resolves to no live record, or update the resolved record in place; finally
encode the record's uint64 bolthold key `s.ID` as the cookie token. -/
def Save (db : Db) (r : Request) (session : WSession) (now : Int)
    (freshId : String) (maxLen : Nat) : SaveResult :=
  let s? := getSessionFromCookie db r session.name now
  if session.options.maxAge < 0 then
    let db' := match s? with
      | some s => deleteAt db s.ID
      | none => db
    { db := db', cookie := some ⟨session.name, .empty, session.options⟩, err := none }
  else
    match encodeMulti maxLen (.vals session.values) with
    | none => { db := db, cookie := none, err := some .encodingFailure }
    | some data =>
      let expire := now + session.options.maxAge
      match s? with
      | none =>
        let newRec : Session :=
          { ID := db.nextSeq, Session := freshId, Data := data,
            CreatedAt := now, UpdatedAt := now, ExpiresAt := expire }
        let db' : Db := { records := db.records ++ [newRec], nextSeq := db.nextSeq + 1 }
        match encodeMulti maxLen (.num db.nextSeq) with
        | none => { db := db', cookie := none, err := some .encodingFailure }
        | some idTok =>
          { db := db', cookie := some ⟨session.name, .tok idTok, session.options⟩,
            err := none }
      | some s =>
        let s' := { s with Data := data, UpdatedAt := now, ExpiresAt := expire }
        let db' := updateAt db s.ID s'
        match encodeMulti maxLen (.num s.ID) with
        | none => { db := db', cookie := none, err := some .encodingFailure }
        | some idTok =>
          { db := db', cookie := some ⟨session.name, .tok idTok, session.options⟩,
            err := none }

/-- `BoltStore.Cleanup`: `DeleteMatching` with
`Where("ExpiresAt").Le(now)`. -/
def Cleanup (db : Db) (now : Int) : Db :=
  { db with records := db.records.filter (fun x => decide (now < x.ExpiresAt)) }

/-- How many records a `Cleanup` at `now` removes. -/
def sweepCount (db : Db) (now : Int) : Nat :=
  (db.records.filter (fun x => decide (x.ExpiresAt ≤ now))).length

/-! ## Concrete runs used by the claim theorems -/

/-- Default cookie options with a one-hour max-age. -/
def opts0 : Options := ⟨"/", 3600⟩

/-- A working session named `sess` holding the values `{"user": "alice"}`. -/
def sess0 : WSession := ⟨"sess", "", [("user", "alice")], opts0, true⟩

/-- A request that carries no cookie. -/
def req0 : Request := ⟨[]⟩

/-- An empty store whose bucket sequence will hand out 1 next. -/
def db0 : Db := ⟨[], 1⟩

/-- First save of `sess0` on the empty store (random identifier `RANDOMID`,
codec max length 4096). -/
def run0 : SaveResult := Save db0 req0 sess0 0 "RANDOMID" 4096

/-- A request carrying exactly the cookie that `run0` attached to the
response: the token holding the uint64 key 1. -/
def req1 : Request := ⟨[("sess", .good (.num 1))]⟩

/-- C1: the round-trip fails on the code.  `Save` succeeds and attaches a
cookie, but the cookie token encodes the uint64 bolthold key `s.ID` (here 1),
and `New`'s `getSessionFromCookie` decodes the cookie into a string
(`sessionID := ""`), which gob rejects as a type mismatch — so resolving the
request that carries exactly the saved cookie yields `is-new = true` with
empty values, not `is-new = false` with the saved values. -/
theorem save_then_new_does_not_resume :
    run0.err = none ∧
    run0.cookie = some ⟨"sess", .tok (.good (.num 1)), opts0⟩ ∧
    (New run0.db req1 "sess" opts0 0).1.isNew = true ∧
    (New run0.db req1 "sess" opts0 0).1.values = [] := by
  decide

/-- C2: the cookie written by `Save` exposes the internal sequence key.  In
the `run0` save, the inserted record has bolthold key 1 and opaque session
identifier `RANDOMID`, yet the cookie value is the token of the number 1 —
the auto-increment sequence key — not a token of the identifier string, and
that token does not even decode as a string session id. -/
theorem save_cookie_encodes_sequence_key :
    run0.db.records.map Session.ID = [1] ∧
    run0.db.records.map Session.Session = ["RANDOMID"] ∧
    run0.cookie = some ⟨"sess", .tok (.good (.num 1)), opts0⟩ ∧
    decodeMultiString (.good (.num 1)) = none := by
  decide

/-! ## Sweep (Cleanup) -/

/-- C7: `Cleanup` removes every record with `ExpiresAt ≤ now` (every
survivor satisfies `now < ExpiresAt`), and sweeping is idempotent: a second
`Cleanup` at the same instant changes nothing and removes zero records. -/
theorem cleanup_removes_expired_and_idempotent (db : Db) (now : Int) :
    (∀ x ∈ (Cleanup db now).records, now < x.ExpiresAt) ∧
    Cleanup (Cleanup db now) now = Cleanup db now ∧
    sweepCount (Cleanup db now) now = 0 := by
  refine ⟨?_, ?_, ?_⟩
  · intro x hx
    simp only [Cleanup, List.mem_filter, decide_eq_true_eq] at hx
    exact hx.2
  · simp [Cleanup, List.filter_filter]
  · have h : ∀ x ∈ (Cleanup db now).records, ¬ (decide (x.ExpiresAt ≤ now) = true) := by
      intro x hx
      simp only [Cleanup, List.mem_filter, decide_eq_true_eq] at hx
      simp only [decide_eq_true_eq]
      omega
    simp [sweepCount, List.filter_eq_nil_iff.mpr h]

/-! ## Lookup lemmas -/

/-- A record returned by `findOne` is in the store, carries the queried
identifier, and is not expired. -/
theorem findOne_some_spec {db : Db} {sid : String} {now : Int} {s : Session}
    (h : findOne db sid now = some s) :
    s ∈ db.records ∧ s.Session = sid ∧ now < s.ExpiresAt := by
  have hm := List.mem_of_find?_eq_some h
  have hp := List.find?_some h
  simp only [Bool.and_eq_true, beq_iff_eq, decide_eq_true_eq] at hp
  exact ⟨hm, hp.1, hp.2⟩

/-- When every record carrying the identifier is expired, `findOne` misses. -/
theorem findOne_eq_none_of_expired {db : Db} {sid : String} {now : Int}
    (h : ∀ x ∈ db.records, x.Session = sid → x.ExpiresAt ≤ now) :
    findOne db sid now = none := by
  refine List.find?_eq_none.mpr (fun x hx => ?_)
  simp only [Bool.and_eq_true, beq_iff_eq, decide_eq_true_eq, not_and]
  intro hsid
  have := h x hx hsid
  omega

/-- C3: lazy expiry at lookup time.  The cookie lookup never returns an
expired record, and a request carrying the identifier of a record all of
whose store entries are expired resolves to a session with
`is-new = true`. -/
theorem expired_record_never_resolves (db : Db) (r : Request) (name : String)
    (opts : Options) (now : Int) (sid : String)
    (hc : r.cookie name = some (.good (.str sid))) :
    (∀ s, getSessionFromCookie db r name now = some s → now < s.ExpiresAt) ∧
    ((∀ x ∈ db.records, x.Session = sid → x.ExpiresAt ≤ now) →
      (New db r name opts now).1.isNew = true) := by
  constructor
  · intro s hs
    cases hcv : r.cookie name with
    | none => simp [getSessionFromCookie, hcv] at hs
    | some t =>
      cases hd : decodeMultiString t with
      | none => simp [getSessionFromCookie, hcv, hd] at hs
      | some sid' =>
        simp only [getSessionFromCookie, hcv, hd] at hs
        exact (findOne_some_spec hs).2.2
  · intro hall
    have hnone : getSessionFromCookie db r name now = none := by
      simp only [getSessionFromCookie, hc, decodeMultiString]
      exact findOne_eq_none_of_expired hall
    simp [New, hnone]

/-- An expired record in the store, its identifier being `SID`. -/
def recE : Session := ⟨1, "SID", .good (.vals []), 0, 0, 100⟩

/-- A store holding only the expired record `recE`. -/
def dbE : Db := ⟨[recE], 2⟩

/-- A request carrying a well-formed cookie token for identifier `SID`. -/
def reqE : Request := ⟨[("sess", .good (.str "SID"))]⟩

/-- Witness for C3: at time 200 the record that expired at 100 does not
resolve, and `New` yields a fresh session. -/
theorem expired_record_never_resolves_witness :
    (New dbE reqE "sess" opts0 200).1.isNew = true :=
  (expired_record_never_resolves dbE reqE "sess" opts0 200 "SID"
    (by decide)).2 (by decide)

/-- C8: when the session cookie is absent, fails authentication/decoding
(including any corrupted token), or refers to an identifier whose records
are all absent or expired, `New` returns a fresh working session with
`is-new = true` and no identifier, and its returned error is nil. -/
theorem resolve_degrades_to_fresh (db : Db) (r : Request) (name : String)
    (opts : Options) (now : Int)
    (hcase : r.cookie name = none ∨
      (∃ t, r.cookie name = some t ∧ decodeMultiString t = none) ∨
      (∃ sid, r.cookie name = some (.good (.str sid)) ∧
        ∀ x ∈ db.records, x.Session = sid → x.ExpiresAt ≤ now)) :
    (New db r name opts now).1.isNew = true ∧
    (New db r name opts now).1.ID = "" ∧
    (New db r name opts now).2 = none := by
  have hnone : getSessionFromCookie db r name now = none := by
    rcases hcase with h | ⟨t, hct, hdt⟩ | ⟨sid, hcs, hall⟩
    · simp [getSessionFromCookie, h]
    · simp [getSessionFromCookie, hct, hdt]
    · simp only [getSessionFromCookie, hcs, decodeMultiString]
      exact findOne_eq_none_of_expired hall
  simp [New, hnone]

/-- Witness for C8: a request with no cookie at all resolves to a fresh
error-free session. -/
theorem resolve_degrades_to_fresh_witness :
    (New db0 req0 "sess" opts0 0).1.isNew = true ∧
    (New db0 req0 "sess" opts0 0).1.ID = "" ∧
    (New db0 req0 "sess" opts0 0).2 = none :=
  resolve_degrades_to_fresh db0 req0 "sess" opts0 0 (Or.inl (by decide))

/-- When `findOne` misses, every record carrying the identifier is
expired. -/
theorem expired_of_findOne_eq_none {db : Db} {sid : String} {now : Int}
    (h : findOne db sid now = none) :
    ∀ x ∈ db.records, x.Session = sid → x.ExpiresAt ≤ now := by
  intro x hx hsid
  have hnp := List.find?_eq_none.mp h x hx
  simp only [hsid, Bool.and_eq_true, beq_iff_eq, decide_eq_true_eq, not_and,
    true_implies, forall_const] at hnp
  omega

/-- On a negative max-age, `Save` deletes the resolved record (if any) and
writes an empty cookie with the session's options. -/
theorem Save_negative (db : Db) (r : Request) (session : WSession) (now : Int)
    (freshId : String) (maxLen : Nat) (hneg : session.options.maxAge < 0) :
    Save db r session now freshId maxLen =
      { db := match getSessionFromCookie db r session.name now with
              | some s => deleteAt db s.ID
              | none => db,
        cookie := some ⟨session.name, .empty, session.options⟩,
        err := none } := by
  simp only [Save]
  rw [if_pos hneg]

/-- C4: saving a session whose effective max-age is negative deletes the
live record for the request's cookie identifier when one exists (afterwards
no live record with that identifier remains, assuming at most one was live),
attaches a cookie with an empty value and the same (negative-max-age)
options, returns no error, and leaves the store untouched when no live
record existed. -/
theorem save_negative_maxAge_logout (db : Db) (r : Request)
    (session : WSession) (now : Int) (freshId : String) (maxLen : Nat)
    (sid : String)
    (hneg : session.options.maxAge < 0)
    (hc : r.cookie session.name = some (.good (.str sid)))
    (huniq : ∀ x ∈ db.records, ∀ y ∈ db.records,
      x.Session = sid → now < x.ExpiresAt → y.Session = sid →
        now < y.ExpiresAt → x = y) :
    (Save db r session now freshId maxLen).err = none ∧
    (Save db r session now freshId maxLen).cookie =
      some ⟨session.name, .empty, session.options⟩ ∧
    (∀ x ∈ (Save db r session now freshId maxLen).db.records,
      x.Session = sid → x.ExpiresAt ≤ now) ∧
    ((∀ x ∈ db.records, x.Session = sid → x.ExpiresAt ≤ now) →
      (Save db r session now freshId maxLen).db = db) := by
  have hg : getSessionFromCookie db r session.name now = findOne db sid now := by
    simp only [getSessionFromCookie, hc, decodeMultiString]
  rw [Save_negative db r session now freshId maxLen hneg, hg]
  cases hf : findOne db sid now with
  | none =>
    refine ⟨rfl, rfl, ?_, fun _ => rfl⟩
    exact expired_of_findOne_eq_none hf
  | some s0 =>
    obtain ⟨hmem, hsid0, hlive0⟩ := findOne_some_spec hf
    refine ⟨rfl, rfl, ?_, ?_⟩
    · intro x hx hxsid
      simp only [deleteAt, List.mem_filter, ne_eq, decide_eq_true_eq] at hx
      by_contra hlt
      push_neg at hlt
      exact hx.2 (congrArg Session.ID
        (huniq x hx.1 s0 hmem hxsid hlt hsid0 hlive0))
    · intro hall
      exact absurd hlive0 (by have := hall s0 hmem hsid0; omega)

/-- A live record (expiry 100, key 1, identifier `SID`) used by the logout
witness. -/
def recL : Session := ⟨1, "SID", .good (.vals [("user", "alice")]), 0, 0, 100⟩

/-- A store holding only the live record `recL`. -/
def dbL : Db := ⟨[recL], 2⟩

/-- A working session marked for deletion: max-age −1. -/
def sessDel : WSession := ⟨"sess", "", [], ⟨"/", -1⟩, false⟩

/-- Witness for C4: at time 10 the live record `recL` is deleted, the empty
cookie carries the −1 max-age, and no error is returned. -/
theorem save_negative_maxAge_logout_witness :
    (Save dbL reqE sessDel 10 "X" 4096).err = none ∧
    (Save dbL reqE sessDel 10 "X" 4096).cookie =
      some ⟨"sess", .empty, ⟨"/", -1⟩⟩ ∧
    (∀ x ∈ (Save dbL reqE sessDel 10 "X" 4096).db.records,
      x.Session = "SID" → x.ExpiresAt ≤ 10) ∧
    ((∀ x ∈ dbL.records, x.Session = "SID" → x.ExpiresAt ≤ 10) →
      (Save dbL reqE sessDel 10 "X" 4096).db = dbL) :=
  save_negative_maxAge_logout dbL reqE sessDel 10 "X" 4096 "SID"
    (by decide) (by decide) (by decide)

/-- When the payload cannot be encoded, `Save` returns the encoding error
without touching the store or the response. -/
theorem Save_payload_fail (db : Db) (r : Request) (session : WSession)
    (now : Int) (freshId : String) (maxLen : Nat)
    (hneg : ¬ session.options.maxAge < 0)
    (henc : encodeMulti maxLen (.vals session.values) = none) :
    Save db r session now freshId maxLen =
      { db := db, cookie := none, err := some .encodingFailure } := by
  simp only [Save, henc, if_neg hneg]

/-- Store contents after a `Save` that resolves the request cookie to the
live record `s0`: that record is overwritten in place with the fresh
payload and timestamps. -/
theorem Save_update_char (db : Db) (r : Request) (session : WSession)
    (now : Int) (freshId : String) (maxLen : Nat) (s0 : Session) (data : Tok)
    (hneg : ¬ session.options.maxAge < 0)
    (hs : getSessionFromCookie db r session.name now = some s0)
    (henc : encodeMulti maxLen (.vals session.values) = some data) :
    (Save db r session now freshId maxLen).db =
      updateAt db s0.ID
        { s0 with
          Data := data, UpdatedAt := now,
          ExpiresAt := now + session.options.maxAge } := by
  simp only [Save, hs, henc, if_neg hneg]
  cases encodeMulti maxLen (.num s0.ID) <;> rfl

/-- Store contents after a `Save` whose request cookie resolves to no live
record: a fresh record is appended under the next sequence key. -/
theorem Save_insert_char (db : Db) (r : Request) (session : WSession)
    (now : Int) (freshId : String) (maxLen : Nat) (data : Tok)
    (hneg : ¬ session.options.maxAge < 0)
    (hs : getSessionFromCookie db r session.name now = none)
    (henc : encodeMulti maxLen (.vals session.values) = some data) :
    (Save db r session now freshId maxLen).db =
      { records := db.records ++
          [{ ID := db.nextSeq, Session := freshId, Data := data,
             CreatedAt := now, UpdatedAt := now,
             ExpiresAt := now + session.options.maxAge }],
        nextSeq := db.nextSeq + 1 } := by
  simp only [Save, hs, henc, if_neg hneg]
  cases encodeMulti maxLen (.num db.nextSeq) <;> rfl

/-- A record resolved from the request cookie is in the store and not
expired. -/
theorem getSessionFromCookie_some_spec {db : Db} {r : Request} {name : String}
    {now : Int} {s : Session}
    (h : getSessionFromCookie db r name now = some s) :
    s ∈ db.records ∧ now < s.ExpiresAt := by
  cases hc : r.cookie name with
  | none => simp [getSessionFromCookie, hc] at h
  | some t =>
    cases hd : decodeMultiString t with
    | none => simp [getSessionFromCookie, hc, hd] at h
    | some sid =>
      simp only [getSessionFromCookie, hc, hd] at h
      exact ⟨(findOne_some_spec h).1, (findOne_some_spec h).2.2⟩

/-- Frame lemma for a `Save` whose request cookie resolves to a live
record: the store does not grow and every record keeps its key, identifier
and creation time. -/
theorem Save_resolved_frame (db : Db) (r : Request) (session : WSession)
    (now : Int) (freshId : String) (maxLen : Nat) (s0 : Session)
    (hs : getSessionFromCookie db r session.name now = some s0)
    (hge : 0 ≤ session.options.maxAge) :
    (Save db r session now freshId maxLen).db.nextSeq = db.nextSeq ∧
    (Save db r session now freshId maxLen).db.records.length =
      db.records.length ∧
    ∀ x ∈ (Save db r session now freshId maxLen).db.records,
      ∃ y ∈ db.records,
        x.ID = y.ID ∧ x.Session = y.Session ∧ x.CreatedAt = y.CreatedAt := by
  have hneg : ¬ session.options.maxAge < 0 := by omega
  cases henc : encodeMulti maxLen (.vals session.values) with
  | none =>
    rw [Save_payload_fail db r session now freshId maxLen hneg henc]
    exact ⟨rfl, rfl, fun x hx => ⟨x, hx, rfl, rfl, rfl⟩⟩
  | some data =>
    rw [Save_update_char db r session now freshId maxLen s0 data hneg hs henc]
    obtain ⟨hmem, -⟩ := getSessionFromCookie_some_spec hs
    refine ⟨rfl, by simp [updateAt], ?_⟩
    intro x hx
    simp only [updateAt, List.mem_map] at hx
    obtain ⟨z, hz, hzx⟩ := hx
    by_cases hid : z.ID = s0.ID
    · rw [if_pos hid] at hzx
      exact ⟨s0, hmem, by simp [← hzx]⟩
    · rw [if_neg hid] at hzx
      exact ⟨z, hz, by simp [← hzx]⟩

/-- C5: a `Save` with non-negative max-age on a request that resolves to an
existing live record never grows the store (sequence counter and record
count unchanged) and preserves every record's bolthold key, session
identifier and creation time — only payload, `UpdatedAt` and `ExpiresAt`
change. -/
theorem save_preserves_identifier (db : Db) (r : Request) (session : WSession)
    (now : Int) (freshId : String) (maxLen : Nat) (s0 : Session)
    (hs : getSessionFromCookie db r session.name now = some s0)
    (hge : 0 ≤ session.options.maxAge) :
    (Save db r session now freshId maxLen).db.nextSeq = db.nextSeq ∧
    (Save db r session now freshId maxLen).db.records.length =
      db.records.length ∧
    ∀ x ∈ (Save db r session now freshId maxLen).db.records,
      ∃ y ∈ db.records,
        x.ID = y.ID ∧ x.Session = y.Session ∧ x.CreatedAt = y.CreatedAt :=
  Save_resolved_frame db r session now freshId maxLen s0 hs hge

/-- A working session resuming `recL`: name `sess`, max-age 50 seconds. -/
def sessW : WSession := ⟨"sess", "", [("k", "v")], ⟨"/", 50⟩, true⟩

/-- Witness for C5: updating the store `dbL` through the cookie of `recL`
keeps the sequence counter, the record count, and every record's key,
identifier and creation time. -/
theorem save_preserves_identifier_witness :
    (Save dbL reqE sessW 10 "NEWID" 4096).db.nextSeq = dbL.nextSeq ∧
    (Save dbL reqE sessW 10 "NEWID" 4096).db.records.length =
      dbL.records.length ∧
    ∀ x ∈ (Save dbL reqE sessW 10 "NEWID" 4096).db.records,
      ∃ y ∈ dbL.records,
        x.ID = y.ID ∧ x.Session = y.Session ∧ x.CreatedAt = y.CreatedAt :=
  save_preserves_identifier dbL reqE sessW 10 "NEWID" 4096 recL
    (by decide) (by decide)

/-- The expiry invariant of the data model: every persisted record satisfies
`ExpiresAt = UpdatedAt + a` for the configured max-age `a`. -/
def expiryInv (a : Int) (db : Db) : Prop :=
  ∀ x ∈ db.records, x.ExpiresAt = x.UpdatedAt + a

/-- C6: a `Save` with the configured non-negative max-age `a` preserves the
invariant `ExpiresAt = UpdatedAt + a` over the whole store (both the insert
and the update path write records satisfying it), and a successful first
save (no resolved record) appends a record whose `CreatedAt` equals its
`UpdatedAt`, both set to `now`, with `ExpiresAt = now + a`. -/
theorem save_expiry_invariant (db : Db) (r : Request) (session : WSession)
    (now : Int) (freshId : String) (maxLen : Nat)
    (hge : 0 ≤ session.options.maxAge)
    (hinv : expiryInv session.options.maxAge db) :
    expiryInv session.options.maxAge (Save db r session now freshId maxLen).db ∧
    ((Save db r session now freshId maxLen).err = none →
      getSessionFromCookie db r session.name now = none →
      ∃ x ∈ (Save db r session now freshId maxLen).db.records,
        x.Session = freshId ∧ x.CreatedAt = now ∧ x.UpdatedAt = now ∧
          x.ExpiresAt = now + session.options.maxAge) := by
  have hneg : ¬ session.options.maxAge < 0 := by omega
  cases henc : encodeMulti maxLen (.vals session.values) with
  | none =>
    rw [Save_payload_fail db r session now freshId maxLen hneg henc]
    exact ⟨hinv, fun h => absurd h (by simp)⟩
  | some data =>
    cases hs : getSessionFromCookie db r session.name now with
    | none =>
      rw [Save_insert_char db r session now freshId maxLen data hneg hs henc]
      constructor
      · intro x hx
        rcases List.mem_append.mp hx with hold | hnew
        · exact hinv x hold
        · simp only [List.mem_singleton] at hnew
          subst hnew
          rfl
      · intro _ _
        refine ⟨_, List.mem_append_right _ (List.mem_singleton.mpr rfl),
          rfl, rfl, rfl, rfl⟩
    | some s0 =>
      rw [Save_update_char db r session now freshId maxLen s0 data hneg hs henc]
      refine ⟨?_, fun _ h => Option.noConfusion h⟩
      intro x hx
      simp only [updateAt, List.mem_map] at hx
      obtain ⟨z, hz, hzx⟩ := hx
      by_cases hid : z.ID = s0.ID
      · rw [if_pos hid] at hzx
        subst hzx
        rfl
      · rw [if_neg hid] at hzx
        subst hzx
        exact hinv z hz

/-- Witness for C6: the first save of `sess0` on the empty store writes a
record with `CreatedAt = UpdatedAt = 0` and `ExpiresAt = 3600`, and the
invariant holds for the whole store afterwards. -/
theorem save_expiry_invariant_witness :
    expiryInv 3600 (Save db0 req0 sess0 0 "RANDOMID" 4096).db ∧
    ((Save db0 req0 sess0 0 "RANDOMID" 4096).err = none →
      getSessionFromCookie db0 req0 "sess" 0 = none →
      ∃ x ∈ (Save db0 req0 sess0 0 "RANDOMID" 4096).db.records,
        x.Session = "RANDOMID" ∧ x.CreatedAt = 0 ∧ x.UpdatedAt = 0 ∧
          x.ExpiresAt = 0 + 3600) :=
  save_expiry_invariant db0 req0 sess0 0 "RANDOMID" 4096 (by decide)
    (fun x hx => by simp [db0] at hx)

/-- C10: `Save` chooses between inserting and updating solely by re-reading
the request cookie, never by the working session's `isNew` flag or `ID`
field.  When the cookie resolves to a live record and max-age is
non-negative, `Save` never inserts (counter and record count unchanged, the
keys and identifiers in the store are untouched), and its entire result is
unchanged under arbitrary rewrites of the working session's `isNew` and
`ID`. -/
theorem save_decides_by_cookie_lookup (db : Db) (r : Request)
    (session : WSession) (now : Int) (freshId : String) (maxLen : Nat)
    (s0 : Session)
    (hs : getSessionFromCookie db r session.name now = some s0)
    (hge : 0 ≤ session.options.maxAge) :
    (Save db r session now freshId maxLen).db.nextSeq = db.nextSeq ∧
    (Save db r session now freshId maxLen).db.records.length =
      db.records.length ∧
    (∀ x ∈ (Save db r session now freshId maxLen).db.records,
      ∃ y ∈ db.records, x.ID = y.ID ∧ x.Session = y.Session) ∧
    (∀ b i, Save db r { session with isNew := b, ID := i } now freshId maxLen =
      Save db r session now freshId maxLen) := by
  obtain ⟨h1, h2, h3⟩ :=
    Save_resolved_frame db r session now freshId maxLen s0 hs hge
  refine ⟨h1, h2, ?_, ?_⟩
  · intro x hx
    obtain ⟨y, hy, hxy⟩ := h3 x hx
    exact ⟨y, hy, hxy.1, hxy.2.1⟩
  · intro b i
    cases session
    rfl

/-- Witness for C10: on the store `dbL` and the cookie of `recL`, flipping
the working session's `isNew`/`ID` does not change the outcome of `Save`,
and nothing is inserted. -/
theorem save_decides_by_cookie_lookup_witness :
    (Save dbL reqE sessW 10 "NEWID" 4096).db.nextSeq = dbL.nextSeq ∧
    (Save dbL reqE sessW 10 "NEWID" 4096).db.records.length =
      dbL.records.length ∧
    (∀ x ∈ (Save dbL reqE sessW 10 "NEWID" 4096).db.records,
      ∃ y ∈ dbL.records, x.ID = y.ID ∧ x.Session = y.Session) ∧
    (∀ b i, Save dbL reqE { sessW with isNew := b, ID := i } 10 "NEWID" 4096 =
      Save dbL reqE sessW 10 "NEWID" 4096) :=
  save_decides_by_cookie_lookup dbL reqE sessW 10 "NEWID" 4096 recL
    (by decide) (by decide)

/-- C9 (amended): whenever `Save` returns an encoding failure no cookie is
attached to the response; and when it is the payload encoding that failed,
the store is untouched.  (When the identifier-token encoding fails the
insert/update has already been committed — see the counterexample.) -/
theorem save_encoding_failure_aborts (db : Db) (r : Request)
    (session : WSession) (now : Int) (freshId : String) (maxLen : Nat)
    (he : (Save db r session now freshId maxLen).err ≠ none) :
    (Save db r session now freshId maxLen).cookie = none ∧
    (encodeMulti maxLen (.vals session.values) = none →
      (Save db r session now freshId maxLen).db = db) := by
  by_cases hneg : session.options.maxAge < 0
  · rw [Save_negative db r session now freshId maxLen hneg] at he
    exact absurd rfl he
  · cases henc : encodeMulti maxLen (.vals session.values) with
    | none =>
      rw [Save_payload_fail db r session now freshId maxLen hneg henc]
      exact ⟨rfl, fun _ => rfl⟩
    | some data =>
      refine ⟨?_, fun h => Option.noConfusion h⟩
      cases hs : getSessionFromCookie db r session.name now with
      | none =>
        simp only [Save, hs, henc, if_neg hneg] at he ⊢
        cases hid : encodeMulti maxLen (.num db.nextSeq) with
        | none => simp [hid]
        | some idTok => rw [hid] at he; exact absurd rfl he
      | some s0 =>
        simp only [Save, hs, henc, if_neg hneg] at he ⊢
        cases hid : encodeMulti maxLen (.num s0.ID) with
        | none => simp [hid]
        | some idTok => rw [hid] at he; exact absurd rfl he

/-- An empty store whose bucket sequence will hand out 10 next: the token of
the key 10 is two characters long. -/
def db9 : Db := ⟨[], 10⟩

/-- A working session with empty values, so that the payload encodes even
under a tiny codec maximum length. -/
def sess9 : WSession := ⟨"sess", "", [], ⟨"/", 3600⟩, true⟩

/-- C9 counterexample: with codec max length 1, the payload (size 0) encodes
but the identifier token for key 10 (size 2) does not.  `Save` returns the
encoding failure and sets no cookie, yet the freshly inserted record is
already committed: the store after the failed `Save` differs from the store
before, refuting "the stored state is not partially committed". -/
theorem save_id_encoding_failure_commits :
    (Save db9 req0 sess9 0 "RID" 1).err = some .encodingFailure ∧
    (Save db9 req0 sess9 0 "RID" 1).cookie = none ∧
    (Save db9 req0 sess9 0 "RID" 1).db ≠ db9 := by
  decide

/-- Witness for C9 (amended), at the same failing save: no cookie is set,
and the store-untouched conclusion is conditional on the payload encoding
being the failing one. -/
theorem save_encoding_failure_aborts_witness :
    (Save db9 req0 sess9 0 "RID" 1).cookie = none ∧
    (encodeMulti 1 (.vals sess9.values) = none →
      (Save db9 req0 sess9 0 "RID" 1).db = db9) :=
  save_encoding_failure_aborts db9 req0 sess9 0 "RID" 1 (by decide)

end Boltstore
